import Mathlib

/-!
Verification development for the InvisiScan client (`src/app/page.tsx`,
`src/unnamed/part_000`) and the upload API route
(`src/app/api/upload/route.ts`), checked against the repository's
natural-language specification.

The TypeScript handlers are shallowly embedded: each React event handler
becomes a pure Lean function from its inputs (component state, the file or
text it receives, the HTTP outcome) to the requests it issues and the state
updates it performs.  Browser `File` objects are records of the fields the
code reads; JSON numeric payloads (boxes, logits) are rationals, which the
handlers only copy, never compute with.
-/

namespace InvisiScan

/-- A browser `File` as the handlers observe it: `name`, MIME `type`
(`mime` here) and `size` in bytes. -/
structure JSFile where
  name : String
  mime : String
  size : Nat
  deriving DecidableEq, Repr

/-! ### Upload API route (`src/app/api/upload/route.ts`) -/

/-- A request to the upload route: either well-formed form data whose
`"image"` field is a file or absent, or a request on which some step of the
handler throws (body parsing, buffering). -/
inductive UploadRequest where
  | form (file : Option JSFile)
  | throws
  deriving DecidableEq, Repr

/-- The JSON response of the upload route: HTTP status, the `error` field of
the error bodies, and the `filename`/`size`/`type` echo of the success body. -/
structure UploadResponse where
  status : Nat
  error : Option String
  filename : Option String
  size : Option Nat
  filetype : Option String
  deriving DecidableEq, Repr

/-- JavaScript's `String.prototype.startsWith`: the argument is a prefix of
the receiver's character sequence. -/
def strStartsWith (s p : String) : Bool :=
  p.data.isPrefixOf s.data

/-- The 5MB size limit of the upload route (`const maxSize = 5 * 1024 * 1024`). -/
def uploadMaxSize : Nat := 5 * 1024 * 1024

/-- Helper: the route's `NextResponse.json({ error }, { status: 400 })`. -/
def uploadError400 (msg : String) : UploadResponse :=
  { status := 400, error := some msg, filename := none, size := none, filetype := none }

/-- The `POST` handler of `src/app/api/upload/route.ts` (lines 3–53): reject
with 400 when no `"image"` file is present, when the MIME type is not
`image/*`, or when the size exceeds 5MB; otherwise echo name, size and type
with 200; any thrown exception is caught and answered with 500. -/
def uploadPOST (req : UploadRequest) : UploadResponse :=
  match req with
  | .throws =>
      { status := 500, error := some "Upload failed",
        filename := none, size := none, filetype := none }
  | .form none => uploadError400 "No file provided"
  | .form (some f) =>
      if ¬ strStartsWith f.mime "image/" then uploadError400 "File must be an image"
      else if f.size > uploadMaxSize then uploadError400 "File size must be less than 5MB"
      else { status := 200, error := none,
             filename := some f.name, size := some f.size, filetype := some f.mime }

/-! ### Location-cue selection (`src/app/page.tsx`, `handleLocationCueToggle`) -/

/-- `handleLocationCueToggle` (`src/app/page.tsx` lines 374–384): the state
update copies the previous selection, deletes `cueName` if present and adds
it otherwise. -/
def handleLocationCueToggle (cueName : String) (prev : Finset String) : Finset String :=
  if cueName ∈ prev then prev.erase cueName else insert cueName prev

/-- C4: the upload route's POST returns 400 exactly when the form has no
`"image"` file, the MIME type does not start with `image/`, or the size
exceeds 5*1024*1024 bytes; a request passing all three checks gets a 200
echoing name, size and type; a thrown exception yields 500. -/
theorem c4_upload_post_validation (req : UploadRequest) :
    ((uploadPOST req).status = 400 ↔
      req = .form none ∨
        ∃ f, req = .form (some f) ∧
          (strStartsWith f.mime "image/" = false ∨ f.size > 5 * 1024 * 1024)) ∧
    ((uploadPOST req).status = 500 ↔ req = .throws) ∧
    (∀ f, req = .form (some f) → strStartsWith f.mime "image/" = true →
      f.size ≤ 5 * 1024 * 1024 →
      uploadPOST req = { status := 200, error := none, filename := some f.name,
                         size := some f.size, filetype := some f.mime }) := by
  refine ⟨?_, ?_, ?_⟩
  · constructor
    · intro h
      match req with
      | .throws => simp [uploadPOST] at h
      | .form none => exact Or.inl rfl
      | .form (some f) =>
          refine Or.inr ⟨f, rfl, ?_⟩
          by_cases hm : strStartsWith f.mime "image/"
          · by_cases hs : f.size > uploadMaxSize
            · exact Or.inr hs
            · simp [uploadPOST, hm, hs] at h
          · exact Or.inl (by simpa using hm)
    · rintro (rfl | ⟨f, rfl, h⟩)
      · rfl
      · rcases h with hm | hs
        · simp [uploadPOST, uploadError400, hm]
        · by_cases hm : strStartsWith f.mime "image/"
          · simp [uploadPOST, uploadError400, hm, uploadMaxSize, hs]
          · simp [uploadPOST, uploadError400, hm]
  · constructor
    · intro h
      match req with
      | .throws => rfl
      | .form none => simp [uploadPOST, uploadError400] at h
      | .form (some f) =>
          by_cases hm : strStartsWith f.mime "image/" <;>
            by_cases hs : f.size > uploadMaxSize <;>
            simp [uploadPOST, uploadError400, hm, hs] at h
    · rintro rfl; rfl
  · rintro f rfl hm hs
    simp [uploadPOST, hm, uploadMaxSize, Nat.not_lt.mpr hs]

/-- C4 witness: a 2-byte PNG named `a.png` passes all checks and is echoed
back with status 200. -/
theorem c4_upload_post_validation_witness :
    uploadPOST (.form (some ⟨"a.png", "image/png", 2⟩)) =
      { status := 200, error := none, filename := some "a.png",
        size := some 2, filetype := some "image/png" } :=
  (c4_upload_post_validation (.form (some ⟨"a.png", "image/png", 2⟩))).2.2
    ⟨"a.png", "image/png", 2⟩ rfl (by decide) (by decide)

/-- C9: one application of `handleLocationCueToggle` flips the membership of
exactly the toggled cue name, leaves every other name's membership unchanged,
and applying it twice with the same cue name restores the original set. -/
theorem c9_cue_toggle_involution (s : Finset String) (c : String) :
    (c ∈ handleLocationCueToggle c s ↔ c ∉ s) ∧
    (∀ d, d ≠ c → (d ∈ handleLocationCueToggle c s ↔ d ∈ s)) ∧
    handleLocationCueToggle c (handleLocationCueToggle c s) = s := by
  refine ⟨?_, ?_, ?_⟩
  · by_cases h : c ∈ s <;> simp [handleLocationCueToggle, h]
  · intro d hd
    by_cases h : c ∈ s <;> simp [handleLocationCueToggle, h, hd, Ne.symm hd]
  · by_cases h : c ∈ s
    · have h2 : c ∉ s.erase c := Finset.not_mem_erase c s
      simp only [handleLocationCueToggle, if_pos h, if_neg h2]
      exact Finset.insert_erase h
    · have h2 : c ∈ insert c s := Finset.mem_insert_self c s
      simp only [handleLocationCueToggle, if_neg h, if_pos h2]
      exact Finset.erase_insert h
/-- C9 witness: toggling `"a"` on the set `{"a"}` leaves membership of the
unrelated name `"b"` unchanged. -/
theorem c9_cue_toggle_involution_witness :
    "b" ∈ handleLocationCueToggle "a" {"a"} ↔ "b" ∈ ({"a"} : Finset String) :=
  (c9_cue_toggle_involution {"a"} "a").2.1 "b" (by decide)

/-! ### Image-scan response data model (`src/app/page.tsx` lines 33–64) -/

/-- The `LocationCue` interface (`src/app/page.tsx` lines 33–37). -/
structure LocationCue where
  priority : Int
  location_cue : String
  reason : String
  deriving DecidableEq, Repr

/-- One value of `bounding_box.mapping`: a box `[center_x, center_y, width,
height]` and a logit.  The handlers only copy these numbers, so JSON numbers
are embedded as rationals. -/
structure MapEntry where
  box : List ℚ
  logit : ℚ
  deriving DecidableEq, Repr

/-- The `bounding_box` member of `ImageApiResponse` (`src/app/page.tsx`
lines 55–63).  The JSON `mapping` object is embedded as an association list
keyed by cue phrase. -/
structure BoundingBoxData where
  image_bytes : String
  mapping : List (String × MapEntry)
  deriving DecidableEq, Repr

/-- The `prediction` member of `ImageApiResponse`, restricted to the field
the claims read (`location_cues`); `confidence`, `detailed_location` and
`coords` are carried opaquely by the handlers and not modelled. -/
structure Prediction where
  location_cues : List LocationCue
  deriving DecidableEq, Repr

/-- The `ImageApiResponse` interface (`src/app/page.tsx` lines 39–64),
restricted to the fields the verified handlers read. -/
structure ImageApiResponse where
  resized_image_bytes : String
  prediction : Prediction
  bounding_box : BoundingBoxData
  deriving DecidableEq, Repr

/-- A value appended to a `FormData`: a file or a string field. -/
inductive FormValue where
  | file (f : JSFile)
  | text (s : String)
  deriving DecidableEq, Repr

/-- An outbound HTTP POST issued via `fetch`: target URL and form entries. -/
structure ScanRequest where
  url : String
  form : List (String × FormValue)
  deriving DecidableEq, Repr

/-- JavaScript's `String.prototype.trim`: strip leading and trailing
whitespace from the character sequence. -/
def jsTrim (s : String) : String :=
  ⟨((s.data.dropWhile Char.isWhitespace).reverse.dropWhile Char.isWhitespace).reverse⟩

/-! ### Location-cue rendering order (`src/app/page.tsx` lines 845–897) -/

/-- The order in which the render displays `location_cues`:
`.sort((a, b) => a.priority - b.priority)` followed by `.map`, i.e. a sort
by nondecreasing `priority` that keeps every element. -/
def renderedLocationCues (cues : List LocationCue) : List LocationCue :=
  List.insertionSort (fun a b => a.priority ≤ b.priority) cues

/-! ### Image scan (`src/app/page.tsx` `handleImageScan`, lines 302–355) -/

/-- The three outcomes of the `fetch` exchange inside `handleImageScan`:
an ok response with a parsed body, a non-ok response, or a thrown error
(network failure or a throw inside the `try` block). -/
inductive ScanOutcome where
  | ok (body : ImageApiResponse)
  | httpError
  | threw
  deriving DecidableEq, Repr

/-- The client status values of `useState<"idle" | "success" | "error">`. -/
inductive ClientStatus where
  | idle
  | success
  | error
  deriving DecidableEq, Repr

/-- The request issued by `handleImageScan` (`src/app/page.tsx` lines
302–315): nothing when no image file is held, otherwise a single POST to the
image-scan endpoint whose form carries the file under the key `"image"`. -/
def handleImageScanRequest (imageFile : Option JSFile) : Option ScanRequest :=
  match imageFile with
  | none => none
  | some f => some ⟨"http://192.168.0.19:8000/api/scan/image", [("image", .file f)]⟩

/-- The value of `imageStatus` after `handleImageScan` finishes
(`src/app/page.tsx` lines 317–354): `"success"` on `response.ok`, `"error"`
on a non-ok response or when the `catch` block runs. -/
def handleImageScanStatus (o : ScanOutcome) : ClientStatus :=
  match o with
  | .ok _ => .success
  | .httpError => .error
  | .threw => .error

/-- The value of `imageApiResponse` after `handleImageScan` finishes: the
parsed body is stored on `response.ok` (line 320), otherwise the previous
value is retained. -/
def handleImageScanStored (o : ScanOutcome) (prev : Option ImageApiResponse) :
    Option ImageApiResponse :=
  match o with
  | .ok body => some body
  | .httpError => prev
  | .threw => prev

/-! ### Single-page variant (`src/unnamed/part_000` `handleScan`, lines 187–236)

In `part_000` the commented-out `else if` branch (lines 200–203) left the
closing brace of the text branch missing, so the `}}` on line 230 makes the
`fetch` call and the whole response handling part of the *text* `else if`
block.  The model below reproduces that control flow. -/

/-- The input discriminator `inputType` of `part_000`. -/
inductive InputKind where
  | image
  | text
  deriving DecidableEq, Repr

/-- `inputData` of `part_000`: a `File` or a string. -/
inductive InputData where
  | fileData (f : JSFile)
  | textData (s : String)
  deriving DecidableEq, Repr

/-- The requests issued by `handleScan` of `src/unnamed/part_000` (lines
187–236): the guard returns when input is missing; the image branch appends
`"image"` to the form but — because the `fetch` sits inside the text
`else if` block — issues no request; only the text branch reaches `fetch`. -/
def part000HandleScanRequests (ty : Option InputKind) (data : Option InputData) :
    List ScanRequest :=
  match ty, data with
  | none, _ => []
  | _, none => []
  | some .image, some (.fileData _) => []
  | some .text, some (.textData s) =>
      [⟨"http://localhost:8000/api/scan", [("text_input", .text (jsTrim s))]⟩]
  | some _, some _ => []

/-! ### Mask action (`src/app/page.tsx` `handleRefineLocation`, lines 386–421) -/

/-- What invoking `handleRefineLocation` does: return without a request,
throw while building the payload (reading `.box` of an undefined mapping
entry), or issue a single POST to `/api/mask/image`. -/
inductive MaskAction where
  | noRequest
  | crash
  | request (resized_image_bytes : String) (mapping : List (String × MapEntry))
  deriving DecidableEq, Repr

/-- The payload mapping built by the `forEach` over the selected cue names
(`src/app/page.tsx` lines 389–396): for each selected name, look its entry
up in `bounding_box.mapping` and copy `box` and `logit`; a missing entry
makes the loop throw (`none` here). -/
def buildMaskMapping (m : List (String × MapEntry)) :
    List String → Option (List (String × MapEntry))
  | [] => some []
  | c :: rest =>
      match m.lookup c, buildMaskMapping m rest with
      | some e, some tail => some ((c, e) :: tail)
      | _, _ => none

/-- `handleRefineLocation` (`src/app/page.tsx` lines 386–421): return
without any request when no response bundle is held or the selection is
empty; otherwise build the payload mapping from the selected names and issue
one POST carrying `resized_image_bytes` and that mapping. -/
def handleRefineLocation (resp : Option ImageApiResponse) (selected : List String) :
    MaskAction :=
  match resp with
  | none => .noRequest
  | some r =>
      if selected.isEmpty then .noRequest
      else
        match buildMaskMapping r.bounding_box.mapping selected with
        | none => .crash
        | some mp => .request r.resized_image_bytes mp

/-- When `buildMaskMapping` succeeds, its keys are exactly the selected
names in order and every entry is the unchanged `bounding_box.mapping`
entry of its key. -/
theorem buildMaskMapping_spec (m : List (String × MapEntry)) :
    ∀ sel mp, buildMaskMapping m sel = some mp →
      mp.map Prod.fst = sel ∧ ∀ c e, (c, e) ∈ mp → m.lookup c = some e := by
  intro sel
  induction sel with
  | nil =>
      intro mp h
      simp only [buildMaskMapping, Option.some.injEq] at h
      subst h
      simp
  | cons c rest ih =>
      intro mp h
      simp only [buildMaskMapping] at h
      cases hl : m.lookup c with
      | none => rw [hl] at h; simp at h
      | some e =>
          rw [hl] at h
          cases ht : buildMaskMapping m rest with
          | none => rw [ht] at h; simp at h
          | some tail =>
              rw [ht] at h
              simp only [Option.some.injEq] at h
              subst h
              obtain ⟨h1, h2⟩ := ih tail ht
              refine ⟨by simp [h1], ?_⟩
              intro c2 e2 hmem
              rcases List.mem_cons.mp hmem with heq | hmem2
              · obtain ⟨rfl, rfl⟩ := Prod.mk.injEq .. ▸ heq
                simpa using hl
              · exact h2 c2 e2 hmem2

/-- If every selected name has a mapping entry, `buildMaskMapping` succeeds. -/
theorem buildMaskMapping_isSome (m : List (String × MapEntry)) :
    ∀ sel, (∀ c ∈ sel, (m.lookup c).isSome = true) →
      buildMaskMapping m sel ≠ none := by
  intro sel
  induction sel with
  | nil => intro _; simp [buildMaskMapping]
  | cons c rest ih =>
      intro h
      have hc := h c (List.mem_cons_self c rest)
      have hrest := ih fun d hd => h d (List.mem_cons_of_mem c hd)
      simp only [buildMaskMapping]
      cases hl : m.lookup c with
      | none => rw [hl] at hc; simp at hc
      | some e =>
          cases ht : buildMaskMapping m rest with
          | none => exact absurd ht hrest
          | some tail => simp

/-- C6: the location cues are displayed sorted by nondecreasing `priority`
(well-defined for arbitrary, possibly repeated or gapped priorities), and
the displayed list is a permutation of the response's list, so every cue is
rendered exactly once. -/
theorem c6_cues_rendered_sorted_by_priority (cues : List LocationCue) :
    (renderedLocationCues cues).Sorted (fun a b => a.priority ≤ b.priority) ∧
    (renderedLocationCues cues).Perm cues ∧
    ∀ c, (renderedLocationCues cues).count c = cues.count c := by
  haveI : IsTotal LocationCue (fun a b => a.priority ≤ b.priority) :=
    ⟨fun a b => le_total a.priority b.priority⟩
  haveI : IsTrans LocationCue (fun a b => a.priority ≤ b.priority) :=
    ⟨fun _ _ _ hab hbc => le_trans hab hbc⟩
  refine ⟨List.sorted_insertionSort _ cues, List.perm_insertionSort _ cues, ?_⟩
  intro c
  exact (List.perm_insertionSort _ cues).count_eq c

/-- C3: after an image-scan exchange the recorded status is `"success"` if
and only if the response was ok — in particular also when the returned
`bounding_box.mapping` is empty — and `"error"` exactly when the response
was non-ok or the request threw. -/
theorem c3_scan_status_iff_ok (o : ScanOutcome) :
    (handleImageScanStatus o = .success ↔ ∃ body, o = .ok body) ∧
    (handleImageScanStatus o = .error ↔ o = .httpError ∨ o = .threw) ∧
    (∀ resized img cues,
      handleImageScanStatus (.ok ⟨resized, ⟨cues⟩, ⟨img, []⟩⟩) = .success) := by
  refine ⟨?_, ?_, fun _ _ _ => rfl⟩
  · cases o <;> simp [handleImageScanStatus]
  · cases o <;> simp [handleImageScanStatus]

/-- C2: in `src/app/page.tsx`, `handleImageScan` with an image file held
issues exactly one POST with the file under the form key `"image"` and
stores the returned bundle on an ok response, and sends nothing without a
file; in `src/unnamed/part_000`, `handleScan` on the same image input issues
no request at all, because the stray brace of the commented-out branch
leaves the `fetch` call inside the text `else if` block.  Evaluated here at
a concrete image file and response. -/
theorem c2_image_scan_divergence :
    handleImageScanRequest (some ⟨"p.png", "image/png", 3⟩) =
      some ⟨"http://192.168.0.19:8000/api/scan/image",
            [("image", .file ⟨"p.png", "image/png", 3⟩)]⟩ ∧
    handleImageScanRequest none = none ∧
    (∀ body prev, handleImageScanStored (.ok body) prev = some body) ∧
    part000HandleScanRequests (some .image) (some (.fileData ⟨"p.png", "image/png", 3⟩)) =
      [] := by
  exact ⟨rfl, rfl, fun _ _ => rfl, rfl⟩

/-- C1: with no response bundle or an empty selection, the mask action sends
no request; with a non-empty selection whose names all have mapping entries,
it issues exactly one POST to `/api/mask/image` carrying the bundle's
`resized_image_bytes` unchanged and a mapping keyed exactly by the selected
names, each entry copied unchanged from `bounding_box.mapping`. -/
theorem c1_mask_request_payload (r : ImageApiResponse) (selected : List String) :
    (handleRefineLocation none selected = .noRequest) ∧
    (handleRefineLocation (some r) [] = .noRequest) ∧
    (selected ≠ [] →
      (∀ c ∈ selected, (r.bounding_box.mapping.lookup c).isSome = true) →
      ∃ mp, handleRefineLocation (some r) selected =
          .request r.resized_image_bytes mp ∧
        mp.map Prod.fst = selected ∧
        ∀ c e, (c, e) ∈ mp → r.bounding_box.mapping.lookup c = some e) := by
  refine ⟨rfl, rfl, ?_⟩
  intro hne hall
  cases hb : buildMaskMapping r.bounding_box.mapping selected with
  | none => exact absurd hb (buildMaskMapping_isSome _ selected hall)
  | some mp =>
      obtain ⟨h1, h2⟩ := buildMaskMapping_spec _ selected mp hb
      refine ⟨mp, ?_, h1, h2⟩
      simp only [handleRefineLocation, List.isEmpty_iff, hne, if_neg, hb]
      simp [hne, hb]

/-- C1 witness: for a bundle with one mapping entry for `"a"` and the
selection `["a"]`, the mask request carries the bundle's bytes and that
entry unchanged. -/
theorem c1_mask_request_payload_witness :
    ∃ mp, handleRefineLocation
        (some ⟨"BYTES", ⟨[]⟩, ⟨"IMG", [("a", ⟨[0, 0, 1, 1], 1⟩)]⟩⟩) ["a"] =
        .request "BYTES" mp ∧
      mp.map Prod.fst = ["a"] ∧
      ∀ c e, (c, e) ∈ mp →
        ([("a", (⟨[0, 0, 1, 1], 1⟩ : MapEntry))].lookup c) = some e :=
  (c1_mask_request_payload ⟨"BYTES", ⟨[]⟩, ⟨"IMG", [("a", ⟨[0, 0, 1, 1], 1⟩)]⟩⟩
    ["a"]).2.2 (by simp) (by decide)

/-! ### Text scan (`src/app/page.tsx` `handleTextScan`, `downloadRedactedText`) -/

/-- The request issued by `handleTextScan` (`src/app/page.tsx` lines
181–194): nothing when the trimmed input is empty, otherwise a single POST
to the text-scan endpoint carrying the trimmed input under `"text_input"`. -/
def handleTextScanRequest (textInput : String) : Option ScanRequest :=
  if jsTrim textInput = "" then none
  else some ⟨"http://192.168.0.19:8000/api/scan/text",
             [("text_input", .text (jsTrim textInput))]⟩

/-- The value stored into `redactedText` on a successful text scan
(`src/app/page.tsx` line 200): `setRedactedText(result.redacted_text || null)`
— JavaScript `||` maps both a missing field and the empty string to `null`. -/
def storeRedactedText (redacted_text : Option String) : Option String :=
  match redacted_text with
  | some s => if s = "" then none else some s
  | none => none

/-- The content of the file produced by `downloadRedactedText`
(`src/app/page.tsx` lines 229–241): nothing unless `redactedText` is truthy,
otherwise exactly the stored string (`new Blob([redactedText])`). -/
def downloadRedactedContent (redactedText : Option String) : Option String :=
  match redactedText with
  | some s => if s = "" then none else some s
  | none => none

/-! ### Input-acceptance resets (`src/app/page.tsx` lines 127–179, 244–272) -/

/-- The `ProcessingData` interface (`src/app/page.tsx` lines 12–23),
restricted to the fields the page populates. -/
structure ProcessingData where
  original_filename : Option String
  file_size : Option Nat
  format : Option String
  processing_status : String
  input_type : String
  deriving DecidableEq, Repr

/-- The `DetectedLocation` interface (`src/app/page.tsx` lines 25–31). -/
structure DetectedLocation where
  lat : ℚ
  lng : ℚ
  address : Option String
  confidence : ℚ
  source : String
  deriving DecidableEq, Repr

/-- The text-tab slice of the component state (`src/app/page.tsx` lines
88–94). -/
structure TextTabState where
  textInput : String
  textFile : Option JSFile
  textStatus : ClientStatus
  redactedText : Option String
  textProcessedData : Option ProcessingData
  textMessage : Option String
  deriving DecidableEq, Repr

/-- The image-tab slice of the component state (`src/app/page.tsx` lines
97–107).  `maskImageResponse` is represented by its `masked_img` string. -/
structure ImageTabState where
  imageFile : Option JSFile
  imagePreview : Option String
  imageStatus : ClientStatus
  processedImage : Option String
  imageProcessedData : Option ProcessingData
  imageMessage : Option String
  detectedLocation : Option DetectedLocation
  imageApiResponse : Option ImageApiResponse
  maskImageResponse : Option String
  selectedLocationCues : Finset String
  deriving DecidableEq

/-- `resetTextState` (`src/app/page.tsx` lines 127–132). -/
def resetTextState (s : TextTabState) : TextTabState :=
  { s with textStatus := .idle, textProcessedData := none,
           redactedText := none, textMessage := none }

/-- `isWordFile` (`src/app/page.tsx` lines 113–116). -/
def isWordFile (f : JSFile) : Bool :=
  f.mime = "application/vnd.openxmlformats-officedocument.wordprocessingml.document" ||
  f.mime = "application/msword"

/-- JavaScript's `String.prototype.toLowerCase` on the character sequence. -/
def jsToLower (s : String) : String :=
  ⟨s.data.map Char.toLower⟩

/-- JavaScript's `String.prototype.endsWith`: the argument is a suffix of
the receiver's character sequence. -/
def strEndsWith (s p : String) : Bool :=
  p.data.isSuffixOf s.data

/-- `isTextFile` (`src/app/page.tsx` lines 118–120). -/
def isTextFile (f : JSFile) : Bool :=
  strStartsWith f.mime "text/" || strEndsWith (jsToLower f.name) ".txt"

/-- `isImageFile` (`src/app/page.tsx` lines 122–124). -/
def isImageFile (f : JSFile) : Bool :=
  strStartsWith f.mime "image/"

/-- `handleTextFileSelect` (`src/app/page.tsx` lines 134–165): any selected
file first resets the text result state; a Word file then installs the
extracted text (trimmed) and the file; a text file does so when the trimmed
content is non-empty; other files only trigger an alert.  `extracted` is the
text produced by the file reader or the Word extractor. -/
def handleTextFileSelect (file : Option JSFile) (extracted : String)
    (s : TextTabState) : TextTabState :=
  match file with
  | none => s
  | some f =>
      let s1 := resetTextState s
      if isWordFile f then
        { s1 with textInput := jsTrim extracted, textFile := some f }
      else if isTextFile f then
        if jsTrim extracted ≠ "" then
          { s1 with textInput := jsTrim extracted, textFile := some f }
        else s1
      else s1

/-- `handleTextChange` (`src/app/page.tsx` lines 167–179): store the typed
text; when its trimmed form is non-empty, reset the text result state and
drop any attached file. -/
def handleTextChange (text : String) (s : TextTabState) : TextTabState :=
  let s1 := { s with textInput := text }
  if jsTrim text ≠ "" then { resetTextState s1 with textFile := none } else s1

/-- `resetImageState` (`src/app/page.tsx` lines 244–253). -/
def resetImageState (s : ImageTabState) : ImageTabState :=
  { s with imageStatus := .idle, imageProcessedData := none,
           processedImage := none, imageMessage := none,
           detectedLocation := none, imageApiResponse := none,
           maskImageResponse := none, selectedLocationCues := ∅ }

/-- `handleImageFileSelect` (`src/app/page.tsx` lines 255–272): an image
file is installed and the image result state reset (the async reader then
fills the preview, modelled by `dataUrl`); any other file only triggers an
alert. -/
def handleImageFileSelect (file : Option JSFile) (dataUrl : String)
    (s : ImageTabState) : ImageTabState :=
  match file with
  | none => s
  | some f =>
      if isImageFile f then
        { resetImageState { s with imageFile := some f } with
          imagePreview := some dataUrl }
      else s

/-- C5 counterexample: when the server's successful response carries
`redacted_text = ""`, the stored value is `null`, not the returned string —
the claim's "stored unmodified" fails at the empty string. -/
theorem c5_text_scan_counterexample :
    storeRedactedText (some "") ≠ some "" := by
  decide

/-- C5 (amended): the client sends the trimmed input under `"text_input"`
(and nothing when the trimmed input is empty); a *non-empty* returned
`redacted_text` is stored unmodified and the downloaded file's content is
byte-for-byte that stored string; an empty or missing `redacted_text` is
stored as `null`, and no download happens without a stored string. -/
theorem c5_text_scan_amended (t s : String) :
    (jsTrim t ≠ "" → handleTextScanRequest t =
      some ⟨"http://192.168.0.19:8000/api/scan/text",
            [("text_input", .text (jsTrim t))]⟩) ∧
    (jsTrim t = "" → handleTextScanRequest t = none) ∧
    (s ≠ "" → storeRedactedText (some s) = some s ∧
      downloadRedactedContent (storeRedactedText (some s)) = some s) ∧
    storeRedactedText (some "") = none ∧
    storeRedactedText none = none ∧
    downloadRedactedContent none = none := by
  refine ⟨?_, ?_, ?_, rfl, rfl, rfl⟩
  · intro h; simp [handleTextScanRequest, h]
  · intro h; simp [handleTextScanRequest, h]
  · intro h
    simp [storeRedactedText, downloadRedactedContent, h]

/-- C5 witness: scanning the input `"  hi  "` sends `"hi"`, and the
non-empty response string `"my <SSN>"` is stored and downloaded unchanged. -/
theorem c5_text_scan_amended_witness :
    handleTextScanRequest "  hi  " =
      some ⟨"http://192.168.0.19:8000/api/scan/text",
            [("text_input", .text (jsTrim "  hi  "))]⟩ ∧
    storeRedactedText (some "my <SSN>") = some "my <SSN>" :=
  ⟨(c5_text_scan_amended "  hi  " "my <SSN>").1 (by decide),
   ((c5_text_scan_amended "  hi  " "my <SSN>").2.2.1 (by decide)).1⟩

/-- C10: selecting a new image file resets every image-tab result field
(status idle, processed image, processing data, detected location, API
response, mask response cleared, selection emptied) while installing the
file; typing non-empty text or selecting a text/Word file resets every
text-tab result field — so stale results never survive a newly accepted
input. -/
theorem c10_new_input_discards_results (si : ImageTabState) (st : TextTabState)
    (f : JSFile) (dataUrl text extracted : String) :
    (isImageFile f = true →
      (handleImageFileSelect (some f) dataUrl si).imageStatus = .idle ∧
      (handleImageFileSelect (some f) dataUrl si).processedImage = none ∧
      (handleImageFileSelect (some f) dataUrl si).imageProcessedData = none ∧
      (handleImageFileSelect (some f) dataUrl si).imageMessage = none ∧
      (handleImageFileSelect (some f) dataUrl si).detectedLocation = none ∧
      (handleImageFileSelect (some f) dataUrl si).imageApiResponse = none ∧
      (handleImageFileSelect (some f) dataUrl si).maskImageResponse = none ∧
      (handleImageFileSelect (some f) dataUrl si).selectedLocationCues = ∅ ∧
      (handleImageFileSelect (some f) dataUrl si).imageFile = some f) ∧
    (jsTrim text ≠ "" →
      (handleTextChange text st).textStatus = .idle ∧
      (handleTextChange text st).textProcessedData = none ∧
      (handleTextChange text st).redactedText = none ∧
      (handleTextChange text st).textMessage = none ∧
      (handleTextChange text st).textInput = text) ∧
    (isWordFile f = true ∨ isTextFile f = true →
      (handleTextFileSelect (some f) extracted st).textStatus = .idle ∧
      (handleTextFileSelect (some f) extracted st).textProcessedData = none ∧
      (handleTextFileSelect (some f) extracted st).redactedText = none ∧
      (handleTextFileSelect (some f) extracted st).textMessage = none) := by
  refine ⟨?_, ?_, ?_⟩
  · intro h
    simp [handleImageFileSelect, h, resetImageState]
  · intro h
    simp [handleTextChange, h, resetTextState]
  · intro _
    by_cases hw : isWordFile f
    · simp [handleTextFileSelect, hw, resetTextState]
    · by_cases ht : isTextFile f
      · by_cases he : jsTrim extracted = "" <;>
          simp [handleTextFileSelect, hw, ht, he, resetTextState]
      · simp [handleTextFileSelect, hw, ht, resetTextState]

/-- C10 witness: a concrete PNG selection clears the stored API response,
and a concrete `.txt` selection clears the stored redacted text, starting
from states that still hold stale results. -/
theorem c10_new_input_discards_results_witness :
    (handleImageFileSelect (some ⟨"x.png", "image/png", 1⟩) "u"
        ⟨none, none, .success, some "stale", none, none, none, none,
         some "stale", {"a"}⟩).imageApiResponse = none ∧
    (handleTextFileSelect (some ⟨"n.txt", "text/plain", 1⟩) "hello"
        ⟨"", none, .success, some "stale", none, none⟩).redactedText = none :=
  ⟨((c10_new_input_discards_results
      ⟨none, none, .success, some "stale", none, none, none, none,
       some "stale", {"a"}⟩
      ⟨"", none, .success, some "stale", none, none⟩
      ⟨"x.png", "image/png", 1⟩ "u" "" "").1 (by decide)).2.2.2.2.2.1,
   ((c10_new_input_discards_results
      ⟨none, none, .success, some "stale", none, none, none, none,
       some "stale", {"a"}⟩
      ⟨"", none, .success, some "stale", none, none⟩
      ⟨"n.txt", "text/plain", 1⟩ "u" "" "hello").2.2
        (Or.inr (by decide))).2.2.1⟩

/-! ### Cue-selection safety (`src/app/page.tsx` lines 374–401, 844–897)

The events that touch `imageApiResponse.bounding_box.mapping` and
`selectedLocationCues`: selecting or clearing an image file runs
`resetImageState` (clears both), a successful scan stores a new response
*without* touching the selection (`handleImageScan`, lines 317–345), and a
cue row is only toggleable when `hasMapping` holds for it (lines 848–870). -/

/-- A client event affecting the cue selection and the stored mapping. -/
inductive UiEvent where
  | selectImage
  | scanSuccess (m : List (String × MapEntry))
  | toggle (c : String)
  deriving DecidableEq, Repr

/-- The slice of component state the cue-selection safety claim is about:
the stored response's `bounding_box.mapping` and `selectedLocationCues`. -/
structure CueSelectionState where
  mapping : Option (List (String × MapEntry))
  selected : Finset String
  deriving DecidableEq

/-- Initial state: no response, empty selection. -/
def uiInit : CueSelectionState := ⟨none, ∅⟩

/-- One client event: `selectImage` models `handleImageFileSelect` /
`clearImageInput` (both run `resetImageState`); `scanSuccess m` models the
`response.ok` branch of `handleImageScan`, which replaces the response and
leaves the selection untouched; `toggle c` models a cue-row click, which the
render only wires up when `hasMapping` holds for `c`. -/
def uiStep (s : CueSelectionState) : UiEvent → CueSelectionState
  | .selectImage => ⟨none, ∅⟩
  | .scanSuccess m => { s with mapping := some m }
  | .toggle c =>
      match s.mapping with
      | some m =>
          if (m.lookup c).isSome then
            { s with selected := handleLocationCueToggle c s.selected }
          else s
      | none => s

/-- The state reached from `uiInit` by a list of events. -/
def uiRun (es : List UiEvent) : CueSelectionState :=
  es.foldl uiStep uiInit

/-- Restriction under which the safety invariant does hold: every successful
scan response arrives while the selection is empty (as it is right after a
fresh file selection). -/
def freshScans : CueSelectionState → List UiEvent → Bool
  | _, [] => true
  | s, e :: rest =>
      (match e with
       | .scanSuccess _ => decide (s.selected = ∅)
       | _ => true) && freshScans (uiStep s e) rest

/-- The safety property of claim C8: every selected cue name has an entry in
the current mapping. -/
def cueInv (s : CueSelectionState) : Prop :=
  ∀ c ∈ s.selected, ∃ m, s.mapping = some m ∧ (m.lookup c).isSome = true

/-- `uiStep` preserves `cueInv`, except that a `scanSuccess` step needs the
selection to be empty. -/
theorem uiStep_cueInv (s : CueSelectionState) (e : UiEvent) (hInv : cueInv s)
    (hfresh : ∀ m, e = .scanSuccess m → s.selected = ∅) :
    cueInv (uiStep s e) := by
  cases e with
  | selectImage =>
      intro c hc
      simp [uiStep] at hc
  | scanSuccess m =>
      intro c hc
      have hsel : s.selected = ∅ := hfresh m rfl
      simp [uiStep, hsel] at hc
  | toggle c =>
      cases hm : s.mapping with
      | none => simpa [uiStep, hm] using hInv
      | some m =>
          by_cases hl : (m.lookup c).isSome = true
          · intro d hd
            simp only [uiStep, hm, hl, if_true] at hd ⊢
            by_cases hc : c ∈ s.selected
            · simp only [handleLocationCueToggle, if_pos hc] at hd
              have hds : d ∈ s.selected := Finset.mem_of_mem_erase hd
              obtain ⟨m2, hm2, hl2⟩ := hInv d hds
              rw [hm] at hm2
              have hmm : m = m2 := Option.some.inj hm2
              exact ⟨m, rfl, hmm ▸ hl2⟩
            · simp only [handleLocationCueToggle, if_neg hc] at hd
              rcases Finset.mem_insert.mp hd with rfl | hds
              · exact ⟨m, rfl, hl⟩
              · obtain ⟨m2, hm2, hl2⟩ := hInv d hds
                rw [hm] at hm2
                have hmm : m = m2 := Option.some.inj hm2
                exact ⟨m, rfl, hmm ▸ hl2⟩
          · simpa [uiStep, hm, hl] using hInv

/-- Along a trace whose scans all arrive with an empty selection, `cueInv`
is preserved from any state satisfying it. -/
theorem freshScans_foldl_cueInv :
    ∀ (es : List UiEvent) (s : CueSelectionState), cueInv s →
      freshScans s es = true → cueInv (es.foldl uiStep s) := by
  intro es
  induction es with
  | nil => intro s h _; simpa using h
  | cons e rest ih =>
      intro s hInv hfresh
      simp only [freshScans, Bool.and_eq_true] at hfresh
      obtain ⟨hguard, hrest⟩ := hfresh
      have hstep : cueInv (uiStep s e) := by
        refine uiStep_cueInv s e hInv ?_
        intro m hm
        subst hm
        exact of_decide_eq_true hguard
      simpa using ih (uiStep s e) hstep hrest

/-- C8 counterexample: scan a response whose mapping has an entry for
`"a"`, toggle `"a"` on, then scan again (same image file, no new file
selection) getting a response with an empty mapping.  The reached state has
`"a"` selected with no mapping entry, and invoking the mask action with
that selection throws while reading the undefined entry — refuting the
claim's "the set is emptied whenever the response changes". -/
theorem c8_counterexample :
    "a" ∈ (uiRun [.scanSuccess [("a", ⟨[], 1⟩)], .toggle "a",
                  .scanSuccess []]).selected ∧
    (uiRun [.scanSuccess [("a", ⟨[], 1⟩)], .toggle "a",
            .scanSuccess []]).mapping = some [] ∧
    (([] : List (String × MapEntry)).lookup "a") = none ∧
    handleRefineLocation (some ⟨"B", ⟨[]⟩, ⟨"I", []⟩⟩) ["a"] = .crash := by
  refine ⟨?_, rfl, rfl, rfl⟩
  decide

/-- C8 (amended): the invariant — every name in `selectedLocationCues` has
an entry in the current response's `bounding_box.mapping`, so
`handleRefineLocation` never reads `.box`/`.logit` of an undefined entry —
holds in every state reachable by traces whose successful scans all arrive
while the selection is empty (as after each fresh image selection); the
code does not empty the selection when a new response arrives, so a repeat
scan without a new file selection can break it. -/
theorem c8_selected_cues_have_mapping (es : List UiEvent)
    (h : freshScans uiInit es = true) :
    (∀ c ∈ (uiRun es).selected,
      ∃ m, (uiRun es).mapping = some m ∧ (m.lookup c).isSome = true) ∧
    (∀ (r : ImageApiResponse) (sel : List String),
      (uiRun es).mapping = some r.bounding_box.mapping →
      (∀ c ∈ sel, c ∈ (uiRun es).selected) →
      handleRefineLocation (some r) sel ≠ .crash) := by
  have hInv : cueInv (uiRun es) := by
    have h0 : cueInv uiInit := by
      intro c hc
      simp [uiInit] at hc
    exact freshScans_foldl_cueInv es uiInit h0 h
  refine ⟨hInv, ?_⟩
  intro r sel hmap hsel
  have hall : ∀ c ∈ sel, (r.bounding_box.mapping.lookup c).isSome = true := by
    intro c hc
    obtain ⟨m, hm, hl⟩ := hInv c (hsel c hc)
    rw [hmap] at hm
    have hmm : r.bounding_box.mapping = m := Option.some.inj hm
    rw [hmm]
    exact hl
  cases hsel2 : sel with
  | nil => simp [handleRefineLocation]
  | cons c rest =>
      subst hsel2
      simp only [handleRefineLocation, List.isEmpty_cons, if_neg]
      cases hb : buildMaskMapping r.bounding_box.mapping (c :: rest) with
      | none => exact absurd hb (buildMaskMapping_isSome _ _ hall)
      | some mp => simp

/-- C8 witness: along the fresh trace (scan with `"a"` mapped, toggle
`"a"`), the selected cue `"a"` has a mapping entry. -/
theorem c8_selected_cues_have_mapping_witness :
    ∃ m, (uiRun [.scanSuccess [("a", ⟨[], 1⟩)], .toggle "a"]).mapping =
        some m ∧ (m.lookup "a").isSome = true :=
  (c8_selected_cues_have_mapping [.scanSuccess [("a", ⟨[], 1⟩)], .toggle "a"]
    (by decide)).1 "a" (by decide)

/-! ### PII span-conflict resolution (spec §4.6, stage 3)

The `PIIResolver` component is not part of the files under `src/` (only the
client that displays its output is), so its conflict-resolution stage is
modelled from the specification: entities from the regex bank and the NER
stage are merged, overlapping spans are in conflict, regex-sourced entities
win over NER-sourced ones, same-source conflicts go to the longer span with
ties broken toward the earlier start, and the resolved list is pairwise
non-overlapping and ordered by start offset. -/

/-- Modelled from the spec: the `source` discriminator of a `PIIEntity`
(§3), `regex` for stage-1 pattern hits and `ner` for stage-2 recognizer
candidates; the resolver itself is absent from `src/`. -/
inductive PIISource where
  | regex
  | ner
  deriving DecidableEq, Repr

/-- Modelled from the spec: the `PIIEntity` record of §3 (`kind`, `start`,
`end`, `text`, `source`, `confidence`); the resolver is absent from `src/`.
The `end` offset is named `stop` because `end` is reserved in Lean; offsets
are character offsets with the half-open span `[start, stop)`. -/
structure PIIEntity where
  kind : String
  start : Nat
  stop : Nat
  text : String
  source : PIISource
  confidence : ℚ
  deriving DecidableEq, Repr

/-- Modelled from the spec: the length of an entity's span. -/
def spanLen (e : PIIEntity) : Nat := e.stop - e.start

/-- Modelled from the spec: two entities conflict when their `[start, end)`
ranges overlap (§4.6 stage 3); the resolver is absent from `src/`. -/
def entOverlap (a b : PIIEntity) : Bool :=
  decide (a.start < b.stop) && decide (b.start < a.stop)

/-- Modelled from the spec: regex-sourced entities rank before NER-sourced
ones (§4.6 stage 3, "regex-sourced entities always win"). -/
def sourceRank : PIISource → Nat
  | .regex => 0
  | .ner => 1

/-- Modelled from the spec: the resolution priority order of §4.6 stage 3 —
regex before NER, then the longer span, ties toward the earlier start. -/
def prioLE (a b : PIIEntity) : Prop :=
  sourceRank a.source < sourceRank b.source ∨
    (sourceRank a.source = sourceRank b.source ∧
      (spanLen b < spanLen a ∨ (spanLen a = spanLen b ∧ a.start ≤ b.start)))

instance : DecidableRel prioLE := fun a b => by
  unfold prioLE
  infer_instance

/-- Modelled from the spec: the output order of the resolved list, by start
offset (§4.6 stage 3). -/
def startLE (a b : PIIEntity) : Prop := a.start ≤ b.start

instance : DecidableRel startLE := fun a b => Nat.decLe a.start b.start

/-- Modelled from the spec: the single greedy sweep of the design note
(§9) — walk the priority-ordered candidates and keep each entity that
overlaps none of the already-kept ones; the resolver is absent from `src/`. -/
def greedyKeep : List PIIEntity → List PIIEntity → List PIIEntity
  | [], acc => acc
  | e :: rest, acc =>
      if acc.any (fun k => entOverlap e k) then greedyKeep rest acc
      else greedyKeep rest (e :: acc)

/-- Modelled from the spec: stage 3 conflict resolution of `PIIResolver`
(§4.6), absent from `src/` — order the merged candidates by the
regex-first/longer-span/earlier-start priority, sweep once keeping only
non-conflicting entities, and return the survivors ordered by start
offset. -/
def resolveConflicts (l : List PIIEntity) : List PIIEntity :=
  List.insertionSort startLE (greedyKeep (List.insertionSort prioLE l) [])

/-- Overlap of spans is symmetric. -/
theorem entOverlap_comm (a b : PIIEntity) : entOverlap a b = entOverlap b a := by
  simp [entOverlap, Bool.and_comm]

/-- Everything the greedy sweep keeps comes from its input or accumulator. -/
theorem greedyKeep_subset :
    ∀ (l acc : List PIIEntity) (e : PIIEntity),
      e ∈ greedyKeep l acc → e ∈ l ∨ e ∈ acc := by
  intro l
  induction l with
  | nil =>
      intro acc e h
      exact Or.inr (by simpa [greedyKeep] using h)
  | cons x rest ih =>
      intro acc e h
      simp only [greedyKeep] at h
      by_cases hany : acc.any (fun k => entOverlap x k) = true
      · rw [if_pos hany] at h
        rcases ih acc e h with h1 | h1
        · exact Or.inl (List.mem_cons_of_mem x h1)
        · exact Or.inr h1
      · rw [if_neg hany] at h
        rcases ih (x :: acc) e h with h1 | h1
        · exact Or.inl (List.mem_cons_of_mem x h1)
        · rcases List.mem_cons.mp h1 with heq | h2
          · subst heq
            exact Or.inl (List.mem_cons_self _ rest)
          · exact Or.inr h2

/-- The greedy sweep preserves pairwise non-overlap of the accumulator. -/
theorem greedyKeep_pairwise :
    ∀ (l acc : List PIIEntity),
      acc.Pairwise (fun u v => entOverlap u v = false) →
      (greedyKeep l acc).Pairwise (fun u v => entOverlap u v = false) := by
  intro l
  induction l with
  | nil => intro acc h; simpa [greedyKeep] using h
  | cons x rest ih =>
      intro acc h
      simp only [greedyKeep]
      by_cases hany : acc.any (fun k => entOverlap x k) = true
      · rw [if_pos hany]
        exact ih acc h
      · rw [if_neg hany]
        refine ih (x :: acc) (List.Pairwise.cons ?_ h)
        intro k hk
        have h2 := List.any_eq_false.mp (by simpa using hany) k hk
        simpa using h2

/-- Resolving an overlapping pair keeps exactly the priority winner,
whichever order the two entities arrive in. -/
theorem resolve_pair (x y : PIIEntity) (hxy : prioLE x y) (hyx : ¬ prioLE y x)
    (hov : entOverlap x y = true) :
    resolveConflicts [x, y] = [x] ∧ resolveConflicts [y, x] = [x] := by
  have hovyx : entOverlap y x = true := by rw [entOverlap_comm]; exact hov
  have hs1 : List.insertionSort prioLE [x, y] = [x, y] := by
    simp [List.insertionSort, List.orderedInsert, hxy]
  have hs2 : List.insertionSort prioLE [y, x] = [x, y] := by
    simp [List.insertionSort, List.orderedInsert, hyx]
  have hg : greedyKeep [x, y] [] = [x] := by
    simp [greedyKeep, hovyx]
  constructor
  · unfold resolveConflicts
    rw [hs1, hg]
    rfl
  · unfold resolveConflicts
    rw [hs2, hg]
    rfl

/-- C7: the resolved entity list is pairwise non-overlapping, sorted by
start offset and drawn from the input; an overlapping regex/NER pair
resolves to the regex entity alone (in either arrival order); a same-source
overlapping pair resolves to the longer span, with a length tie broken
toward the earlier start offset. -/
theorem c7_conflict_resolution (l : List PIIEntity) (r n a b : PIIEntity) :
    ((resolveConflicts l).Sorted startLE ∧
     (resolveConflicts l).Pairwise (fun u v => entOverlap u v = false) ∧
     ∀ e ∈ resolveConflicts l, e ∈ l) ∧
    (r.source = .regex → n.source = .ner → entOverlap r n = true →
      resolveConflicts [r, n] = [r] ∧ resolveConflicts [n, r] = [r]) ∧
    (a.source = b.source → entOverlap a b = true → spanLen b < spanLen a →
      resolveConflicts [a, b] = [a] ∧ resolveConflicts [b, a] = [a]) ∧
    (a.source = b.source → entOverlap a b = true → spanLen a = spanLen b →
      a.start < b.start →
      resolveConflicts [a, b] = [a] ∧ resolveConflicts [b, a] = [a]) := by
  haveI : IsTotal PIIEntity startLE := ⟨fun u v => Nat.le_total u.start v.start⟩
  haveI : IsTrans PIIEntity startLE := ⟨fun _ _ _ h1 h2 => Nat.le_trans h1 h2⟩
  have hsymm : ∀ {u v : PIIEntity},
      entOverlap u v = false → entOverlap v u = false := by
    intro u v h
    rw [entOverlap_comm]
    exact h
  refine ⟨⟨?_, ?_, ?_⟩, ?_, ?_, ?_⟩
  · exact List.sorted_insertionSort startLE _
  · have hpg := greedyKeep_pairwise (List.insertionSort prioLE l) [] List.Pairwise.nil
    exact ((List.perm_insertionSort startLE _).pairwise_iff hsymm).mpr hpg
  · intro e he
    have h1 : e ∈ greedyKeep (List.insertionSort prioLE l) [] :=
      (List.perm_insertionSort startLE _).mem_iff.mp he
    rcases greedyKeep_subset _ [] e h1 with h2 | h2
    · exact (List.perm_insertionSort prioLE l).mem_iff.mp h2
    · simp at h2
  · intro hr hn hov
    refine resolve_pair r n (Or.inl ?_) ?_ hov
    · rw [hr, hn]
      decide
    · intro hcon
      rcases hcon with h1 | ⟨h1, -⟩ <;> rw [hr, hn] at h1 <;> simp [sourceRank] at h1
  · intro hsrc hov hlen
    refine resolve_pair a b (Or.inr ⟨by rw [hsrc], Or.inl hlen⟩) ?_ hov
    intro hcon
    rcases hcon with h1 | ⟨-, h1 | ⟨h1, -⟩⟩
    · rw [hsrc] at h1
      exact lt_irrefl _ h1
    · omega
    · omega
  · intro hsrc hov hlen hst
    refine resolve_pair a b
      (Or.inr ⟨by rw [hsrc], Or.inr ⟨hlen, Nat.le_of_lt hst⟩⟩) ?_ hov
    intro hcon
    rcases hcon with h1 | ⟨-, h1 | ⟨-, h1⟩⟩
    · rw [hsrc] at h1
      exact lt_irrefl _ h1
    · omega
    · omega

/-- C7 witness: the spec's scenario — a regex-sourced credit card at
offsets 10–29 and an NER-sourced organization at 15–25 overlap, and
resolution keeps only the regex entity. -/
theorem c7_conflict_resolution_witness :
    resolveConflicts
        [⟨"CREDIT_CARD", 10, 29, "4111111111111111111", .regex, 99/100⟩,
         ⟨"ORG", 15, 25, "Acme Corp.", .ner, 1/2⟩] =
      [⟨"CREDIT_CARD", 10, 29, "4111111111111111111", .regex, 99/100⟩] :=
  ((c7_conflict_resolution []
      ⟨"CREDIT_CARD", 10, 29, "4111111111111111111", .regex, 99/100⟩
      ⟨"ORG", 15, 25, "Acme Corp.", .ner, 1/2⟩
      ⟨"CREDIT_CARD", 10, 29, "4111111111111111111", .regex, 99/100⟩
      ⟨"ORG", 15, 25, "Acme Corp.", .ner, 1/2⟩).2.1
    rfl rfl (by decide)).1

end InvisiScan
